import Mathlib

/-!
Shallow embedding of the audio capture / mixing / recording / transport-override
core of the repository (src/app/hooks/useAudioDownload.ts and the RealtimeClient
transport adapter), together with theorems settling the specification claims.

Modelling conventions:
* JavaScript function objects that matter for reference equality (the ambient
  `navigator.mediaDevices.getUserMedia` entry point) are modelled by the
  inductive `GUMFunc`; `Function.prototype.bind` produces a fresh function
  object, modelled by the `bound` constructor.
* MediaStreams are modelled by an identity (`sid`) plus per-track liveness
  booleans (`true` = readyState "live").
* Asynchronous browser results (getUserMedia / getDisplayMedia outcomes,
  MediaRecorder dataavailable events, conversion success) are passed in as
  explicit parameters, so every operation is a pure state transformer.
-/

/-- Identity-carrying model of a JS function value occupying the
`navigator.mediaDevices.getUserMedia` slot.  `real` is the browser-provided
acquisition function present before any install; `bound f` is the fresh
function object produced by `f.bind(navigator.mediaDevices)`; `wrapper n` is
the override closure created by the n-th call to `#overrideGetUserMedia`. -/
inductive GUMFunc where
  | real : GUMFunc
  | bound : GUMFunc → GUMFunc
  | wrapper : Nat → GUMFunc
deriving DecidableEq, Repr

/-- Connection-change notifications emitted by the RealtimeClient. -/
inductive ConnStatus where
  | connecting
  | connected
  | disconnected
deriving DecidableEq, Repr

/-- State of one RealtimeClient instance together with the ambient
`navigator.mediaDevices.getUserMedia` slot (`gum`), as manipulated by
`connect` / `disconnect` / `updateCustomAudioStream` in the source. -/
structure ClientState where
  /-- current value of navigator.mediaDevices.getUserMedia -/
  gum : GUMFunc
  /-- this.#customAudioStream (stream identity) -/
  customAudioStream : Option Nat
  /-- this.#originalGetUserMedia -/
  originalGUM : Option GUMFunc
  /-- this.#session is non-null -/
  sessionActive : Bool
  /-- fresh identity supply for wrapper closures -/
  nextWrapper : Nat
  /-- connection_change events emitted so far, in order -/
  events : List ConnStatus
deriving DecidableEq, Repr

/-- RealtimeClient.#overrideGetUserMedia: returns early if no custom stream is
set; otherwise saves a bound copy of the *current* entry point into
`#originalGetUserMedia` and installs a fresh wrapper closure. -/
def overrideGetUserMedia (st : ClientState) : ClientState :=
  match st.customAudioStream with
  | none => st
  | some _ =>
    { st with
      originalGUM := some (GUMFunc.bound st.gum)
      gum := GUMFunc.wrapper st.nextWrapper
      nextWrapper := st.nextWrapper + 1 }

/-- RealtimeClient.#restoreGetUserMedia: if a saved function is held, writes it
back into the ambient slot and clears the saved slot; otherwise does nothing. -/
def restoreGetUserMedia (st : ClientState) : ClientState :=
  match st.originalGUM with
  | some f => { st with gum := f, originalGUM := none }
  | none => st

/-- RealtimeClient.updateCustomAudioStream: stores the new stream reference,
then re-installs the override (if a stream was supplied) or restores the
original (if null was supplied). -/
def updateCustomAudioStream (st : ClientState) (s : Option Nat) : ClientState :=
  let st1 := { st with customAudioStream := s }
  match s with
  | some _ => overrideGetUserMedia st1
  | none => restoreGetUserMedia st1

/-- RealtimeClient.connect.  `ekOk` says whether `getEphemeralKey()` resolved;
`connOk` says whether the final `session.connect` resolved.  The returned Bool
is `true` when the call completed without throwing.  Mirrors the source order:
early return when a session exists; fetch key; install override when a custom
stream is held; create the session; emit "connecting"; await the transport
connect; emit "connected". -/
def connect (st : ClientState) (ekOk connOk : Bool) : ClientState × Bool :=
  if st.sessionActive then (st, true)
  else if !ekOk then (st, false)
  else
    let st1 := if st.customAudioStream.isSome then overrideGetUserMedia st else st
    let st2 := { st1 with
      sessionActive := true
      events := st1.events ++ [ConnStatus.connecting] }
    if connOk then
      ({ st2 with events := st2.events ++ [ConnStatus.connected] }, true)
    else (st2, false)

/-- RealtimeClient.disconnect: closes and clears the session, restores the
saved acquisition function, then emits "disconnected". -/
def disconnect (st : ClientState) : ClientState :=
  let st1 := restoreGetUserMedia { st with sessionActive := false }
  { st1 with events := st1.events ++ [ConnStatus.disconnected] }

/-- Result of invoking the ambient acquisition entry point. -/
inductive CallResult where
  | customStream : Nat → CallResult
  | devicePrompt : CallResult
  | error : CallResult
deriving DecidableEq, Repr

/-- Behaviour of a `GUMFunc` value when invoked with a constraints object whose
`audio` member is `audio`.  The wrapper closure reads the client's *current*
`#customAudioStream` and `#originalGetUserMedia` fields at call time; a null
saved original makes the wrapper throw (`error`), and `fuel` bounds the
delegation depth (exhaustion models the infinite recursion of a wrapper chain
that delegates to itself). -/
def callGUM (customStream : Option Nat) (orig : Option GUMFunc) :
    Nat → GUMFunc → Bool → CallResult
  | 0, _, _ => CallResult.error
  | _ + 1, GUMFunc.real, _ => CallResult.devicePrompt
  | fuel + 1, GUMFunc.bound f, audio => callGUM customStream orig fuel f audio
  | fuel + 1, GUMFunc.wrapper _, audio =>
    match customStream, audio with
    | some sid, true => CallResult.customStream sid
    | _, _ =>
      match orig with
      | some f => callGUM customStream orig fuel f audio
      | none => CallResult.error

/-- Double-quote character, for embedding the source's quoted message text. -/
def dqc : String := String.singleton (Char.ofNat 34)

/-- Single-quote character, for embedding the source's quoted message text. -/
def sqc : String := String.singleton (Char.ofNat 39)

/-- Does `needle` occur at the start of `hay`? (character-list version) -/
def isPrefixList : List Char → List Char → Bool
  | [], _ => true
  | _ :: _, [] => false
  | a :: as, b :: bs => a = b && isPrefixList as bs

/-- Does `needle` occur anywhere in `hay`? (semantics of JS String.includes) -/
def includesList (needle : List Char) : List Char → Bool
  | [] => needle.isEmpty
  | c :: t => isPrefixList needle (c :: t) || includesList needle t

/-- JS `hay.includes(needle)` on the modelled strings. -/
def strIncludes (hay needle : String) : Bool :=
  includesList needle.data hay.data

/-- Propositional containment: `needle` occurs contiguously inside `hay`. -/
def strContains (hay needle : String) : Prop :=
  ∃ p s : String, hay = p ++ needle ++ s

/-- Per-track liveness model of a MediaStream: `sid` is the object identity,
each Bool is one track (`true` = readyState "live"); audio and video track
lists are kept apart because getDisplayMedia streams mix both kinds. -/
structure MediaStream where
  sid : Nat
  audio : List Bool
  video : List Bool
deriving DecidableEq, Repr

/-- MediaStream.getTracks(). -/
def getTracks (m : MediaStream) : List Bool := m.audio ++ m.video

/-- The validity check used by the source on stored streams:
`tracks.length > 0 && tracks.every(t => t.readyState === 'live')`. -/
def validB (m : MediaStream) : Bool :=
  !(getTracks m).isEmpty && (getTracks m).all (fun t => t)

/-- One encoded recording chunk: `gen` is the generation number of the
MediaRecorder that produced it, `size` its byte size. -/
structure Chunk where
  gen : Nat
  size : Nat
deriving DecidableEq, Repr

/-- The mutable state of the useAudioDownload hook: the refs and state
variables of the source, plus fresh-identity counters for streams created by
the model (`nextId`) and MediaRecorder instances (`nextGen`). -/
structure AudioState where
  /-- combinedStreamRef -/
  combinedStream : Option MediaStream
  /-- browserAudioStreamRef -/
  browserStream : Option MediaStream
  /-- isBrowserAudioEnabled -/
  isBrowserAudioEnabled : Bool
  /-- isCapturingBrowserAudio -/
  isCapturing : Bool
  /-- browserAudioError -/
  browserAudioError : Option String
  /-- mediaRecorderRef, as the generation of the active recorder -/
  recorder : Option Nat
  /-- recordedChunksRef -/
  chunks : List Chunk
  /-- fresh MediaStream identity supply -/
  nextId : Nat
  /-- fresh MediaRecorder generation supply -/
  nextGen : Nat
deriving DecidableEq, Repr

/-- createCombinedAudioStream.  `mic` is the result of the microphone
getUserMedia call (`none` = it threw, caught by the outer catch, which returns
null and changes nothing).  Returns the updated hook state, the returned
stream, and the mix graph actually built: the list of (source stream identity,
gain) branches connected into the destination.  The microphone branch is built
at gain 1.0; a held browser stream is connected at gain 0.7 only when the
source's validity check passes, and is otherwise dropped (clearing the ref and
the enabled flag) with the build still succeeding on the mic branch alone. -/
def createCombinedAudioStream (st : AudioState) (mic : Option MediaStream) :
    AudioState × Option MediaStream × List (Nat × ℚ) :=
  match mic with
  | none => (st, none, [])
  | some m =>
    let base : List (Nat × ℚ) := [(m.sid, 1)]
    let dest : MediaStream := ⟨st.nextId, [true], []⟩
    match st.browserStream with
    | some bs =>
      if validB bs then
        ({ st with combinedStream := some dest, nextId := st.nextId + 1 },
          some dest, base ++ [(bs.sid, 7 / 10)])
      else
        let st1 := { st with browserStream := none, isBrowserAudioEnabled := false }
        ({ st1 with combinedStream := some dest, nextId := st.nextId + 1 },
          some dest, base)
    | none =>
      ({ st with combinedStream := some dest, nextId := st.nextId + 1 },
        some dest, base)

/-- getCombinedAudioStream: returns the cached combined stream when its
validity check passes; otherwise stops the stale stream's tracks (their
identities are returned in the third component), clears the cache and
delegates to createCombinedAudioStream. -/
def getCombinedAudioStream (st : AudioState) (mic : Option MediaStream) :
    AudioState × Option MediaStream × List Nat :=
  match st.combinedStream with
  | some cs =>
    if validB cs then (st, some cs, [])
    else
      let st1 := { st with combinedStream := none }
      let r := createCombinedAudioStream st1 mic
      (r.1, r.2.1, [cs.sid])
  | none =>
    let r := createCombinedAudioStream st mic
    (r.1, r.2.1, [])

/-- Environment facts consulted by checkBrowserAudioSupport. -/
structure BrowserEnv where
  secureContext : Bool
  hostLocalhost : Bool
  hostLoopback : Bool
  hasGetDisplayMedia : Bool
  uaFirefox : Bool
  uaAndroid : Bool
deriving DecidableEq, Repr

/-- checkBrowserAudioSupport: secure-context check, getDisplayMedia presence,
known-bad user-agent check, short-circuiting in that order. -/
def checkBrowserAudioSupport (b : BrowserEnv) : Bool × Option String :=
  if !(b.secureContext || b.hostLocalhost || b.hostLoopback) then
    (false, some ("Browser audio sharing requires HTTPS or localhost. " ++
      "Please use HTTPS or run on localhost."))
  else if !b.hasGetDisplayMedia then
    (false, some ("Your browser doesn" ++ sqc ++
      "t support screen/audio sharing (getDisplayMedia not available)."))
  else if b.uaFirefox && b.uaAndroid then
    (false, some ("Firefox on Android doesn" ++ sqc ++
      "t support audio capture through screen sharing."))
  else (true, none)

/-- Outcomes of the three getDisplayMedia attempts made by
startBrowserAudioCapture, in attempt order; an `error` value carries the
thrown error's message. -/
structure CaptureEnv where
  attempt1 : Except String MediaStream
  attempt2 : Except String MediaStream
  attempt3 : Except String MediaStream
deriving Repr

/-- The diagnostic message composed when all three capture strategies fail,
wrapping the innermost (third) error's message. -/
def composedMsg (e : String) : String :=
  "Browser audio capture not supported. Try: 1) Use Chrome/Edge on desktop 2) Share " ++
    dqc ++ "entire screen" ++ dqc ++ " or " ++ dqc ++ "browser tab" ++ dqc ++
    " with audio 3) Ensure system audio is enabled. Details: " ++ e

/-- The fixed message the outer catch substitutes for permission errors. -/
def permissionDeniedMsg : String :=
  "Permission denied. Please allow screen/audio sharing and try again."

/-- The fixed message the outer catch substitutes for NotSupportedError. -/
def notSupportedMsg : String :=
  "Browser audio sharing not supported. Try using Chrome/Edge on desktop with HTTPS or localhost."

/-- The user-friendly rewriting applied by startBrowserAudioCapture's outer
catch before storing the error message into browserAudioError. -/
def classifyError (m : String) : String :=
  if strIncludes m "Permission denied" || strIncludes m "NotAllowedError" then
    permissionDeniedMsg
  else if strIncludes m "NotSupportedError" then
    notSupportedMsg
  else m

/-- The fallback chain of startBrowserAudioCapture: attempt 1 (audio-only,
echo-cancellation/noise-suppression/auto-gain disabled), then attempt 2
(audio-only, default constraints), then attempt 3 (audio+video, keeping only
the audio tracks in a fresh stream and stopping the video tracks), each tried
only when the previous one threw.  When attempt 3 also throws, the composed
diagnostic wrapping its message is thrown. -/
def acquireStream (env : CaptureEnv) (freshId : Nat) : Except String MediaStream :=
  match env.attempt1 with
  | Except.ok s => Except.ok s
  | Except.error _ =>
    match env.attempt2 with
    | Except.ok s => Except.ok s
    | Except.error _ =>
      match env.attempt3 with
      | Except.ok vs =>
        if vs.audio.isEmpty then
          Except.error "No audio tracks found in the shared stream"
        else Except.ok ⟨freshId, vs.audio, []⟩
      | Except.error e3 => Except.error (composedMsg e3)

/-- startBrowserAudioCapture: flips the capturing flag on and clears the error,
runs the support check (throwing its reason on failure), runs the fallback
acquisition chain, rejects streams with zero audio tracks, and on success
stores the stream and sets the enabled flag (the source leaves the capturing
flag true on success).  Every thrown error is caught by the outer catch, which
resets the flags and stores the classified message; the call then resolves to
null. -/
def startBrowserAudioCapture (st : AudioState) (b : BrowserEnv) (env : CaptureEnv) :
    AudioState × Option MediaStream :=
  let st0 := { st with isCapturing := true, browserAudioError := none }
  let sup := checkBrowserAudioSupport b
  let res : Except String MediaStream :=
    if sup.1 then
      match acquireStream env st.nextId with
      | Except.ok s =>
        if s.audio.isEmpty then
          Except.error ("No audio tracks in the shared stream. Make sure to select " ++
            sqc ++ "Share audio" ++ sqc ++ " when prompted.")
        else Except.ok s
      | Except.error e => Except.error e
    else Except.error (sup.2.getD "Browser audio capture not supported")
  match res with
  | Except.ok s =>
    let st1 := { st0 with browserStream := some s, isBrowserAudioEnabled := true }
    ({ st1 with nextId := st.nextId + 1 }, some s)
  | Except.error e =>
    let st1 := { st0 with isCapturing := false, isBrowserAudioEnabled := false }
    ({ st1 with browserAudioError := some (classifyError e) }, none)

/-- startRecording: builds (or fetches) the combined stream; when that fails
the call just logs and returns.  Otherwise it wires the remote stream and the
combined stream (both at gain 1.0) into a fresh recording graph and starts a
new MediaRecorder (`recorderOk` = the constructor and start did not throw).
The accumulated chunk list is left untouched. -/
def startRecording (st : AudioState) (mic : Option MediaStream) (recorderOk : Bool) :
    AudioState :=
  let r := getCombinedAudioStream st mic
  match r.2.1 with
  | none => r.1
  | some _ =>
    if recorderOk then
      { r.1 with recorder := some r.1.nextGen, nextGen := r.1.nextGen + 1 }
    else r.1

/-- The MediaRecorder ondataavailable handler: appends the event's blob to the
chunk list only when the blob exists and its size is strictly positive.
`producer` is the generation of the recorder whose handler fired; `data` is
the blob (`none` = absent), carrying its size. -/
def onDataAvailable (st : AudioState) (producer : Nat) (data : Option Nat) : AudioState :=
  match data with
  | some sz => if 0 < sz then { st with chunks := st.chunks ++ [⟨producer, sz⟩] } else st
  | none => st

/-- stopRecording: requests final data, stops the recorder and clears the ref;
a no-op when no recorder is active. -/
def stopRecording (st : AudioState) : AudioState :=
  match st.recorder with
  | some _ => { st with recorder := none }
  | none => st

/-- The chunk-arrival step of downloadRecording: when a recorder is active (and
hence in state "recording"), requestData is issued and the 100 ms grace wait
lets the pending dataavailable events `flushData` run through the handler;
otherwise no events arrive. -/
def flushStep (st : AudioState) (flushData : List (Nat × Option Nat)) : AudioState :=
  if st.recorder.isSome then
    flushData.foldl (fun s pd => onDataAvailable s pd.1 pd.2) st
  else st

/-- Observable outcome of downloadRecording. -/
inductive DownloadOutcome where
  | nothingRecorded
  | downloaded : List Chunk → DownloadOutcome
  | conversionFailed
deriving DecidableEq, Repr

/-- downloadRecording: after the grace-period flush, an empty chunk list only
produces a console warning and an early return (no blob, no conversion, no
download); otherwise the chunks are concatenated into one blob and handed to
the converter (`convertOk` = the WAV conversion resolved), whose failure is
caught and logged. -/
def downloadRecording (st : AudioState) (flushData : List (Nat × Option Nat))
    (convertOk : Bool) : AudioState × DownloadOutcome :=
  let st1 := flushStep st flushData
  if st1.chunks.isEmpty then (st1, DownloadOutcome.nothingRecorded)
  else if convertOk then (st1, DownloadOutcome.downloaded st1.chunks)
  else (st1, DownloadOutcome.conversionFailed)

/-- Status values carried by realtime history items (the SDK's item status
union); none of the rendered status strings contains a colon, which is what
makes the source's `itemId:status` key encoding injective. -/
inductive ItemStatus where
  | inProgress
  | completed
  | incomplete
deriving DecidableEq, Repr

/-- String rendering of an item status, as interpolated into the key. -/
def statusStr : ItemStatus → String
  | ItemStatus.inProgress => "in_progress"
  | ItemStatus.completed => "completed"
  | ItemStatus.incomplete => "incomplete"

/-- A history item, reduced to the fields the dedup logic reads. -/
structure HistoryItem where
  itemId : String
  status : ItemStatus
deriving DecidableEq, Repr

/-- The composite key built by the handler: itemId + colon + status. -/
def itemKey (it : HistoryItem) : String :=
  it.itemId ++ ":" ++ statusStr it.status

/-- Events the adapter emits to its own listeners from the handler. -/
inductive AdapterEvent where
  | historyAdded : HistoryItem → AdapterEvent
  | historyUpdated : List HistoryItem → AdapterEvent
deriving DecidableEq, Repr

/-- Per-item step of the history_updated handler's forEach: emit history_added
and record the key exactly when the key has not been seen. -/
def processItem (acc : List String × List AdapterEvent) (it : HistoryItem) :
    List String × List AdapterEvent :=
  let key := itemKey it
  if acc.1.contains key then acc
  else (acc.1 ++ [key], acc.2 ++ [AdapterEvent.historyAdded it])

/-- One history_updated notification: run the forEach over the snapshot, then
re-emit the full snapshot as history_updated. -/
def handleHistoryUpdated (seen : List String) (history : List HistoryItem) :
    List String × List AdapterEvent :=
  let r := history.foldl processItem (seen, [])
  (r.1, r.2 ++ [AdapterEvent.historyUpdated history])

/-- Fold of the handler over a whole sequence of notifications, concatenating
the emissions in order. -/
def processNotifications (seen : List String) :
    List (List HistoryItem) → List String × List AdapterEvent
  | [] => (seen, [])
  | h :: rest =>
    let r1 := handleHistoryUpdated seen h
    let r2 := processNotifications r1.1 rest
    (r2.1, r1.2 ++ r2.2)

/-- Number of history_added emissions for one specific item value. -/
def addedCount (it : HistoryItem) (out : List AdapterEvent) : Nat :=
  out.count (AdapterEvent.historyAdded it)

/-- Number of history_updated emissions. -/
def updatedCount (out : List AdapterEvent) : Nat :=
  out.countP (fun e => match e with
    | AdapterEvent.historyUpdated _ => true
    | _ => false)

theorem createCombinedAudioStream_chunks (st : AudioState) (mic : Option MediaStream) :
    (createCombinedAudioStream st mic).1.chunks = st.chunks := by
  unfold createCombinedAudioStream
  cases mic with
  | none => rfl
  | some m =>
    cases hb : st.browserStream with
    | none => rfl
    | some bs =>
      by_cases hv : validB bs
      · simp [hv]
      · simp [hv]

theorem getCombinedAudioStream_chunks (st : AudioState) (mic : Option MediaStream) :
    (getCombinedAudioStream st mic).1.chunks = st.chunks := by
  unfold getCombinedAudioStream
  cases hc : st.combinedStream with
  | none => simpa using createCombinedAudioStream_chunks st mic
  | some cs =>
    by_cases hv : validB cs
    · simp [hv]
    · simpa [hv] using
        createCombinedAudioStream_chunks { st with combinedStream := none } mic

theorem stopRecording_chunks (st : AudioState) : (stopRecording st).chunks = st.chunks := by
  unfold stopRecording
  cases st.recorder <;> rfl

/-- C4 (amended): startRecording installs a fresh encoder but leaves the
accumulated chunk sequence untouched, so chunks recorded by earlier sessions
are carried over across a stop/start boundary rather than being replaced. -/
theorem startRecording_preserves_chunks (st : AudioState) (mic : Option MediaStream)
    (recorderOk : Bool) :
    (startRecording (stopRecording st) mic recorderOk).chunks = st.chunks ∧
    (startRecording st mic recorderOk).chunks = st.chunks := by
  have key : ∀ s : AudioState, (startRecording s mic recorderOk).chunks = s.chunks := by
    intro s
    unfold startRecording
    by_cases hr : recorderOk <;>
      cases ho : (getCombinedAudioStream s mic).2.1 <;>
      simp [hr, ho, getCombinedAudioStream_chunks s mic]
  exact ⟨by rw [key, stopRecording_chunks], key st⟩

/-- C4 (counterexample): with one chunk recorded by the old session (recorder
generation 0), stopping and starting a new recording session (which gets
recorder generation 1) and receiving one new chunk leaves the old session's
chunk in the accumulated sequence, so the sequence does not contain only
chunks produced by the new session's encoder. -/
theorem chunk_carryover_counterexample :
    (let st0 : AudioState :=
      ⟨some ⟨3, [true], []⟩, none, false, false, none, some 0, [⟨0, 5⟩], 4, 1⟩
     let st3 := onDataAvailable
       (startRecording (stopRecording st0) (some ⟨9, [true], []⟩) true) 1 (some 7)
     st3.recorder = some 1 ∧
     st3.chunks = [⟨0, 5⟩, ⟨1, 7⟩] ∧
     ¬ ∀ c ∈ st3.chunks, c.gen = 1) := by
  decide

/-- C9: calling connect() while a session is already held returns immediately
without touching the client state: no credential fetch, no new session, no
override install, and no connection_change emission (the state, including the
emitted-events list, the ambient entry point and the saved original, is
returned unchanged). -/
theorem connect_noop_when_connected (st : ClientState) (ekOk connOk : Bool)
    (h : st.sessionActive = true) : connect st ekOk connOk = (st, true) := by
  simp [connect, h]

theorem connect_noop_when_connected_witness :
    (⟨GUMFunc.real, some 1, none, true, 0, []⟩ : ClientState).sessionActive = true ∧
    connect (⟨GUMFunc.real, some 1, none, true, 0, []⟩ : ClientState) true true =
      ((⟨GUMFunc.real, some 1, none, true, 0, []⟩ : ClientState), true) :=
  ⟨rfl, connect_noop_when_connected _ true true rfl⟩

theorem onDataAvailable_pos (st : AudioState) (p : Nat) (d : Option Nat)
    (h : ∀ c ∈ st.chunks, 0 < c.size) :
    ∀ c ∈ (onDataAvailable st p d).chunks, 0 < c.size := by
  unfold onDataAvailable
  cases d with
  | none => exact h
  | some sz =>
    by_cases hsz : 0 < sz
    · simp only [hsz, if_true]
      intro c hc
      rcases List.mem_append.1 hc with h1 | h1
      · exact h c h1
      · rcases List.mem_singleton.1 h1 with rfl
        exact hsz
    · simpa [hsz] using h

/-- C10: the dataavailable handler appends a chunk only when the blob exists
and has strictly positive size, so any event sequence run through the handler
preserves the invariant that every accumulated chunk is non-empty (and hence
export never concatenates a zero-length chunk). -/
theorem chunks_all_positive (evs : List (Nat × Option Nat)) (st : AudioState)
    (h : ∀ c ∈ st.chunks, 0 < c.size) :
    ∀ c ∈ (evs.foldl (fun s pd => onDataAvailable s pd.1 pd.2) st).chunks, 0 < c.size := by
  induction evs generalizing st with
  | nil => exact h
  | cons e rest ih =>
    exact ih (onDataAvailable st e.1 e.2) (onDataAvailable_pos st e.1 e.2 h)

theorem chunks_all_positive_witness :
    (∀ c ∈ (⟨none, none, false, false, none, some 0, [], 0, 1⟩ : AudioState).chunks,
      0 < c.size) ∧
    ∀ c ∈ ([((0 : Nat), some (0 : Nat)), (0, some 7), (0, none)].foldl
        (fun s pd => onDataAvailable s pd.1 pd.2)
        (⟨none, none, false, false, none, some 0, [], 0, 1⟩ : AudioState)).chunks,
      0 < c.size :=
  ⟨by decide, chunks_all_positive _ _ (by decide)⟩

/-- C7: when the chunk sequence accumulated by the end of the grace-period
flush is empty, downloadRecording only warns and returns: the outcome is
NothingRecorded, with no blob built, no conversion attempted and no download
triggered. -/
theorem downloadRecording_empty (st : AudioState) (flushData : List (Nat × Option Nat))
    (convertOk : Bool) (h : (flushStep st flushData).chunks = []) :
    downloadRecording st flushData convertOk =
      (flushStep st flushData, DownloadOutcome.nothingRecorded) := by
  unfold downloadRecording
  simp [h]

theorem downloadRecording_empty_witness :
    (flushStep (⟨none, none, false, false, none, none, [], 0, 0⟩ : AudioState) []).chunks
      = [] ∧
    downloadRecording (⟨none, none, false, false, none, none, [], 0, 0⟩ : AudioState) [] true =
      (flushStep (⟨none, none, false, false, none, none, [], 0, 0⟩ : AudioState) [],
        DownloadOutcome.nothingRecorded) :=
  ⟨rfl, downloadRecording_empty _ [] true rfl⟩

/-- C6: the mixed-stream builder always wires the microphone source through a
gain branch at 1.0; a held browser-audio source passing the validity check is
wired through a second gain branch at 0.7; a held but invalid browser-audio
source is skipped without error: the graph stays microphone-only, the build
still returns a destination stream, and no error message is stored. -/
theorem createCombinedAudioStream_gains (st : AudioState) (m : MediaStream) :
    (st.browserStream = none →
      (createCombinedAudioStream st (some m)).2.2 = [(m.sid, 1)] ∧
      (createCombinedAudioStream st (some m)).2.1 = some ⟨st.nextId, [true], []⟩) ∧
    (∀ bs, st.browserStream = some bs → validB bs = true →
      (createCombinedAudioStream st (some m)).2.2 = [(m.sid, 1), (bs.sid, 7 / 10)]) ∧
    (∀ bs, st.browserStream = some bs → validB bs = false →
      (createCombinedAudioStream st (some m)).2.2 = [(m.sid, 1)] ∧
      (createCombinedAudioStream st (some m)).2.1 = some ⟨st.nextId, [true], []⟩ ∧
      (createCombinedAudioStream st (some m)).1.browserAudioError = st.browserAudioError) := by
  refine ⟨fun hb => ?_, fun bs hb hv => ?_, fun bs hb hv => ?_⟩
  · simp [createCombinedAudioStream, hb]
  · simp [createCombinedAudioStream, hb, hv]
  · simp [createCombinedAudioStream, hb, hv]

theorem createCombinedAudioStream_gains_witness :
    validB ⟨5, [true], []⟩ = true ∧
    (createCombinedAudioStream
      (⟨none, some ⟨5, [true], []⟩, true, false, none, none, [], 7, 0⟩ : AudioState)
      (some ⟨9, [true], []⟩)).2.2 = [(9, 1), (5, 7 / 10)] ∧
    validB ⟨6, [false], []⟩ = false ∧
    (createCombinedAudioStream
      (⟨none, some ⟨6, [false], []⟩, true, false, none, none, [], 7, 0⟩ : AudioState)
      (some ⟨9, [true], []⟩)).2.2 = [(9, 1)] :=
  ⟨by decide,
   (createCombinedAudioStream_gains
     (⟨none, some ⟨5, [true], []⟩, true, false, none, none, [], 7, 0⟩ : AudioState)
     ⟨9, [true], []⟩).2.1 ⟨5, [true], []⟩ rfl (by decide),
   by decide,
   ((createCombinedAudioStream_gains
     (⟨none, some ⟨6, [false], []⟩, true, false, none, none, [], 7, 0⟩ : AudioState)
     ⟨9, [true], []⟩).2.2 ⟨6, [false], []⟩ rfl (by decide)).1⟩

/-- C1: evaluation of the double-install sequence (connect with a custom
stream, then updateCustomAudioStream with a new stream).  The later stream
does win at call time, but the saved "original" is a bound copy of the first
wrapper rather than the pre-install acquisition function, so the restore run
by disconnect leaves a wrapper in the ambient slot: the installs stack instead
of replacing. -/
theorem doubleInstall_code_bug :
    (let st0 : ClientState := ⟨GUMFunc.real, some 1, none, false, 0, []⟩
     let st2 := updateCustomAudioStream (connect st0 true true).1 (some 2)
     st2.gum = GUMFunc.wrapper 1 ∧
     st2.originalGUM = some (GUMFunc.bound (GUMFunc.wrapper 0)) ∧
     callGUM st2.customAudioStream st2.originalGUM 9 st2.gum true =
       CallResult.customStream 2 ∧
     (disconnect st2).gum = GUMFunc.bound (GUMFunc.wrapper 0) ∧
     (disconnect st2).gum ≠ GUMFunc.bound GUMFunc.real ∧
     (disconnect st2).gum ≠ GUMFunc.real) := by
  decide

/-- C2 (counterexample): a single install followed by disconnect (here with
the transport connect never completing) leaves the ambient entry point holding
the bound copy created at install time, which is a different function object
from the pre-connect value, so the entry point is not reference-equal to its
pre-connect value. -/
theorem disconnect_restore_counterexample :
    (let st0 : ClientState := ⟨GUMFunc.real, some 1, none, false, 0, []⟩
     let st1 := (connect st0 true false).1
     st1.sessionActive = true ∧
     st1.events = [ConnStatus.connecting] ∧
     (disconnect st1).gum = GUMFunc.bound GUMFunc.real ∧
     (disconnect st1).originalGUM = none ∧
     (disconnect st1).gum ≠ st0.gum) := by
  decide

/-- C2 (amended): for a client with a custom stream and no prior install,
disconnect unconditionally writes the saved function back (even when the
transport connect never completed) and clears the saved slot; the restored
entry point is the bound copy of the pre-connect acquisition function created
at install time (delegating to it, but a distinct function object), and when
the credential fetch failed before the install the entry point is untouched. -/
theorem disconnect_restore_amended (st : ClientState) (connOk : Bool)
    (h1 : st.sessionActive = false) (h2 : st.originalGUM = none)
    (h3 : st.customAudioStream.isSome = true) :
    (disconnect (connect st true connOk).1).gum = GUMFunc.bound st.gum ∧
    (disconnect (connect st true connOk).1).originalGUM = none ∧
    (disconnect (connect st false connOk).1).gum = st.gum := by
  obtain ⟨s, hs⟩ := Option.isSome_iff_exists.mp h3
  cases connOk <;>
    simp [connect, disconnect, overrideGetUserMedia, restoreGetUserMedia, h1, h2, hs]

theorem disconnect_restore_amended_witness :
    ((⟨GUMFunc.real, some 1, none, false, 0, []⟩ : ClientState).sessionActive = false ∧
     (⟨GUMFunc.real, some 1, none, false, 0, []⟩ : ClientState).originalGUM = none ∧
     (⟨GUMFunc.real, some 1, none, false, 0, []⟩ : ClientState).customAudioStream.isSome
       = true) ∧
    ((disconnect (connect (⟨GUMFunc.real, some 1, none, false, 0, []⟩ : ClientState)
        true false).1).gum =
      GUMFunc.bound (⟨GUMFunc.real, some 1, none, false, 0, []⟩ : ClientState).gum ∧
     (disconnect (connect (⟨GUMFunc.real, some 1, none, false, 0, []⟩ : ClientState)
        true false).1).originalGUM = none ∧
     (disconnect (connect (⟨GUMFunc.real, some 1, none, false, 0, []⟩ : ClientState)
        false false).1).gum =
      (⟨GUMFunc.real, some 1, none, false, 0, []⟩ : ClientState).gum) :=
  ⟨⟨rfl, rfl, rfl⟩, disconnect_restore_amended _ false rfl rfl rfl⟩

/-- C3 (counterexample): a cached stream with zero tracks satisfies the
claim's guard (every one of its tracks is live, vacuously), yet the code
treats it as invalid and rebuilds: the call returns a freshly built stream
instead of the cached instance. -/
theorem cache_vacuous_counterexample :
    (let cs : MediaStream := ⟨5, [], []⟩
     let st : AudioState := ⟨some cs, none, false, false, none, none, [], 6, 0⟩
     let r := getCombinedAudioStream st (some ⟨9, [true], []⟩)
     st.combinedStream = some cs ∧
     (∀ t ∈ getTracks cs, t = true) ∧
     r.2.1 = some ⟨6, [true], []⟩ ∧
     r.2.1 ≠ some cs) := by
  decide

theorem createCombinedAudioStream_some_mic (st : AudioState) (m : MediaStream) :
    (createCombinedAudioStream st (some m)).2.1 = some ⟨st.nextId, [true], []⟩ ∧
    (createCombinedAudioStream st (some m)).1.combinedStream =
      some ⟨st.nextId, [true], []⟩ := by
  rcases hb : st.browserStream with _ | bs
  · simp [createCombinedAudioStream, hb]
  · by_cases hv : validB bs <;> simp [createCombinedAudioStream, hb, hv]

theorem createCombinedAudioStream_caches (st : AudioState) (mic : Option MediaStream)
    (d : MediaStream) (hd : (createCombinedAudioStream st mic).2.1 = some d) :
    (createCombinedAudioStream st mic).1.combinedStream = some d ∧ validB d = true := by
  rcases mic with _ | m
  · simp [createCombinedAudioStream] at hd
  · have h := createCombinedAudioStream_some_mic st m
    rw [h.1] at hd
    obtain rfl := Option.some.inj hd
    exact ⟨h.2, by simp [validB, getTracks]⟩

theorem getCombinedAudioStream_caches (st : AudioState) (mic : Option MediaStream)
    (d : MediaStream) (hd : (getCombinedAudioStream st mic).2.1 = some d) :
    (getCombinedAudioStream st mic).1.combinedStream = some d ∧ validB d = true := by
  rcases hc : st.combinedStream with _ | cs
  · simp only [getCombinedAudioStream, hc] at hd ⊢
    exact createCombinedAudioStream_caches st mic d hd
  · by_cases hv : validB cs
    · have heq : getCombinedAudioStream st mic = (st, some cs, []) := by
        simp [getCombinedAudioStream, hc, hv]
      rw [heq] at hd ⊢
      obtain rfl := Option.some.inj hd
      exact ⟨hc, hv⟩
    · simp only [getCombinedAudioStream, hc, hv, if_false, Bool.false_eq_true] at hd ⊢
      exact createCombinedAudioStream_caches _ mic d hd

/-- C3 (amended): getCombinedAudioStream returns the cached stream instance
exactly when the cache holds a stream with at least one track, all of them
live; a cached stream failing that check has its tracks stopped and the cache
cleared before a fresh stream is built and cached; on a successful build the
fresh stream is cached before being returned; and a successful call memoizes:
an immediately following call returns the very same instance with no rebuild
and no stopped tracks. -/
theorem getCombinedAudioStream_amended (st : AudioState) (mic mic2 : Option MediaStream) :
    (∀ cs, st.combinedStream = some cs → validB cs = true →
      getCombinedAudioStream st mic = (st, some cs, [])) ∧
    (∀ cs, st.combinedStream = some cs → validB cs = false →
      (getCombinedAudioStream st mic).2.2 = [cs.sid] ∧
      ∀ m, mic = some m →
        (getCombinedAudioStream st mic).2.1 = some ⟨st.nextId, [true], []⟩ ∧
        (getCombinedAudioStream st mic).1.combinedStream =
          (getCombinedAudioStream st mic).2.1) ∧
    (st.combinedStream = none → ∀ m, mic = some m →
      (getCombinedAudioStream st mic).2.1 = some ⟨st.nextId, [true], []⟩ ∧
      (getCombinedAudioStream st mic).1.combinedStream =
        (getCombinedAudioStream st mic).2.1) ∧
    (∀ d, (getCombinedAudioStream st mic).2.1 = some d →
      getCombinedAudioStream (getCombinedAudioStream st mic).1 mic2 =
        ((getCombinedAudioStream st mic).1, some d, [])) := by
  refine ⟨fun cs hc hv => ?_, fun cs hc hv => ⟨?_, fun m hm => ?_⟩,
    fun hc m hm => ?_, fun d hd => ?_⟩
  · simp [getCombinedAudioStream, hc, hv]
  · simp [getCombinedAudioStream, hc, hv]
  · subst hm
    have h := createCombinedAudioStream_some_mic { st with combinedStream := none } m
    simp only [getCombinedAudioStream, hc, hv, if_false, Bool.false_eq_true]
    exact ⟨h.1, by rw [h.1, h.2]⟩
  · subst hm
    have h := createCombinedAudioStream_some_mic st m
    simp only [getCombinedAudioStream, hc]
    exact ⟨h.1, by rw [h.1, h.2]⟩
  · have h := getCombinedAudioStream_caches st mic d hd
    generalize hg : (getCombinedAudioStream st mic).1 = stm at h ⊢
    simp [getCombinedAudioStream, h.1, h.2]

theorem getCombinedAudioStream_amended_witness :
    validB ⟨5, [true], []⟩ = true ∧
    getCombinedAudioStream
      (⟨some ⟨5, [true], []⟩, none, false, false, none, none, [], 6, 0⟩ : AudioState)
      (some ⟨9, [true], []⟩) =
      ((⟨some ⟨5, [true], []⟩, none, false, false, none, none, [], 6, 0⟩ : AudioState),
        some ⟨5, [true], []⟩, []) :=
  ⟨by decide,
   (getCombinedAudioStream_amended
     (⟨some ⟨5, [true], []⟩, none, false, false, none, none, [], 6, 0⟩ : AudioState)
     (some ⟨9, [true], []⟩) none).1 ⟨5, [true], []⟩ rfl (by decide)⟩

theorem isPrefixList_iff : ∀ (n h : List Char), isPrefixList n h = true ↔ ∃ t, h = n ++ t
  | [], h => by simp [isPrefixList]
  | a :: as, [] => by simp [isPrefixList]
  | a :: as, b :: bs => by
    rw [isPrefixList]
    simp only [Bool.and_eq_true, decide_eq_true_eq]
    rw [isPrefixList_iff as bs]
    constructor
    · rintro ⟨heq, t, ht⟩
      exact ⟨t, by subst heq; rw [ht]; rfl⟩
    · rintro ⟨t, ht⟩
      injection ht with h1 h2
      exact ⟨h1.symm, t, h2⟩

theorem includesList_iff : ∀ (n h : List Char), includesList n h = true ↔ ∃ p s, h = p ++ n ++ s
  | n, [] => by
    simp only [includesList, List.isEmpty_iff]
    constructor
    · rintro rfl
      exact ⟨[], [], rfl⟩
    · rintro ⟨p, s, hps⟩
      rcases List.append_eq_nil.mp hps.symm with ⟨h1, h2⟩
      rcases List.append_eq_nil.mp h1 with ⟨h3, h4⟩
      exact h4
  | n, c :: t => by
    rw [includesList]
    simp only [Bool.or_eq_true]
    rw [isPrefixList_iff, includesList_iff n t]
    constructor
    · rintro (⟨s, hs⟩ | ⟨p, s, hps⟩)
      · exact ⟨[], s, by simpa using hs⟩
      · exact ⟨c :: p, s, by simp [hps]⟩
    · rintro ⟨p, s, hps⟩
      cases p with
      | nil => exact Or.inl ⟨s, by simpa using hps⟩
      | cons x p' =>
        refine Or.inr ?_
        injection hps with h1 h2
        exact ⟨p', s, h2⟩

theorem strData_append (a b : String) : (a ++ b).data = a.data ++ b.data := rfl

theorem strOfData (a b : String) (h : a.data = b.data) : a = b := by
  cases a
  cases b
  exact congrArg String.mk h

theorem strAppend_nil (a : String) : a ++ "" = a := by
  apply strOfData
  rw [strData_append]
  exact List.append_nil a.data

theorem strContains_iff (hay needle : String) :
    strContains hay needle ↔ strIncludes hay needle = true := by
  rw [strIncludes, includesList_iff]
  constructor
  · rintro ⟨p, s, rfl⟩
    exact ⟨p.data, s.data, by simp [strData_append]⟩
  · rintro ⟨pl, sl, hl⟩
    refine ⟨⟨pl⟩, ⟨sl⟩, ?_⟩
    apply strOfData
    simpa [strData_append] using hl

theorem composedMsg_contains (e : String) : strContains (composedMsg e) e := by
  refine ⟨"Browser audio capture not supported. Try: 1) Use Chrome/Edge on desktop 2) Share " ++
    dqc ++ "entire screen" ++ dqc ++ " or " ++ dqc ++ "browser tab" ++ dqc ++
    " with audio 3) Ensure system audio is enabled. Details: ", "", ?_⟩
  rw [strAppend_nil]
  rfl

/-- C5 (amended): past the support check, acquisition tries the three
strategies strictly in order, consulting a later attempt only when the prior
one failed (when attempt 1 succeeds the result is independent of attempts 2
and 3; when attempt 2 succeeds it is independent of attempt 1's error and of
attempt 3); a strategy-3 success keeps only the audio tracks in a fresh
stream; and when all three fail the call resolves to null with the composed
diagnostic - which always contains the innermost (third) error's message -
stored as the surfaced error, except that the outer catch substitutes a fixed
guidance message whenever the composed text mentions a permission-denial or
not-supported marker. -/
theorem startBrowserAudioCapture_amended (st : AudioState) (b : BrowserEnv)
    (hsup : (checkBrowserAudioSupport b).1 = true) :
    (∀ env env' : CaptureEnv, ∀ s : MediaStream,
      env.attempt1 = Except.ok s → env'.attempt1 = Except.ok s →
      startBrowserAudioCapture st b env = startBrowserAudioCapture st b env') ∧
    (∀ env env' : CaptureEnv, ∀ e e' : String, ∀ s : MediaStream,
      env.attempt1 = Except.error e → env.attempt2 = Except.ok s →
      env'.attempt1 = Except.error e' → env'.attempt2 = Except.ok s →
      startBrowserAudioCapture st b env = startBrowserAudioCapture st b env') ∧
    (∀ env : CaptureEnv, ∀ e1 e2 : String, ∀ vs : MediaStream,
      env.attempt1 = Except.error e1 → env.attempt2 = Except.error e2 →
      env.attempt3 = Except.ok vs → vs.audio.isEmpty = false →
      (startBrowserAudioCapture st b env).2 = some ⟨st.nextId, vs.audio, []⟩) ∧
    (∀ env : CaptureEnv, ∀ e1 e2 e3 : String,
      env.attempt1 = Except.error e1 → env.attempt2 = Except.error e2 →
      env.attempt3 = Except.error e3 →
      (startBrowserAudioCapture st b env).2 = none ∧
      (startBrowserAudioCapture st b env).1.browserAudioError =
        some (classifyError (composedMsg e3)) ∧
      strContains (composedMsg e3) e3 ∧
      (strIncludes (composedMsg e3) "Permission denied" = false →
       strIncludes (composedMsg e3) "NotAllowedError" = false →
       strIncludes (composedMsg e3) "NotSupportedError" = false →
       (startBrowserAudioCapture st b env).1.browserAudioError =
         some (composedMsg e3))) := by
  refine ⟨fun env env' s h1 h1' => ?_, fun env env' e e' s h1 h2 h1' h2' => ?_,
    fun env e1 e2 vs h1 h2 h3 hvs => ?_, fun env e1 e2 e3 h1 h2 h3 => ?_⟩
  · simp [startBrowserAudioCapture, acquireStream, h1, h1', hsup]
  · simp [startBrowserAudioCapture, acquireStream, h1, h2, h1', h2', hsup]
  · simp [startBrowserAudioCapture, acquireStream, h1, h2, h3, hvs, hsup]
  · refine ⟨?_, ?_, composedMsg_contains e3, fun hp hn hns => ?_⟩
    · simp [startBrowserAudioCapture, acquireStream, h1, h2, h3, hsup]
    · simp [startBrowserAudioCapture, acquireStream, h1, h2, h3, hsup]
    · simp [startBrowserAudioCapture, acquireStream, h1, h2, h3, hsup,
        classifyError, hp, hn, hns]

/-- C5 (counterexample): when the innermost error's message is
"NotAllowedError", all three strategies fail but the surfaced diagnostic is
the substituted permission guidance text, which does not contain the innermost
error's message. -/
theorem capture_error_message_counterexample :
    (startBrowserAudioCapture
      (⟨none, none, false, false, none, none, [], 0, 0⟩ : AudioState)
      (⟨true, false, false, true, false, false⟩ : BrowserEnv)
      (⟨Except.error "e1", Except.error "e2",
        Except.error "NotAllowedError"⟩ : CaptureEnv)).2 = none ∧
    (startBrowserAudioCapture
      (⟨none, none, false, false, none, none, [], 0, 0⟩ : AudioState)
      (⟨true, false, false, true, false, false⟩ : BrowserEnv)
      (⟨Except.error "e1", Except.error "e2",
        Except.error "NotAllowedError"⟩ : CaptureEnv)).1.browserAudioError =
      some permissionDeniedMsg ∧
    ¬ strContains permissionDeniedMsg "NotAllowedError" := by
  refine ⟨by decide, by decide, fun hc => ?_⟩
  exact absurd ((strContains_iff permissionDeniedMsg "NotAllowedError").mp hc) (by decide)

theorem startBrowserAudioCapture_amended_witness :
    (checkBrowserAudioSupport (⟨true, false, false, true, false, false⟩ : BrowserEnv)).1
      = true ∧
    (startBrowserAudioCapture
      (⟨none, none, false, false, none, none, [], 0, 0⟩ : AudioState)
      (⟨true, false, false, true, false, false⟩ : BrowserEnv)
      (⟨Except.error "a", Except.error "b", Except.error "boom"⟩ : CaptureEnv)).2
      = none ∧
    strContains (composedMsg "boom") "boom" :=
  ⟨rfl,
   ((startBrowserAudioCapture_amended
      (⟨none, none, false, false, none, none, [], 0, 0⟩ : AudioState)
      (⟨true, false, false, true, false, false⟩ : BrowserEnv) rfl).2.2.2
      (⟨Except.error "a", Except.error "b", Except.error "boom"⟩ : CaptureEnv)
      "a" "b" "boom" rfl rfl rfl).1,
   ((startBrowserAudioCapture_amended
      (⟨none, none, false, false, none, none, [], 0, 0⟩ : AudioState)
      (⟨true, false, false, true, false, false⟩ : BrowserEnv) rfl).2.2.2
      (⟨Except.error "a", Except.error "b", Except.error "boom"⟩ : CaptureEnv)
      "a" "b" "boom" rfl rfl rfl).2.2.1⟩

theorem cons_append_split {α : Type} (c : α) :
    ∀ (xs ys u v : List α), c ∉ u → c ∉ v → xs ++ c :: u = ys ++ c :: v →
      xs = ys ∧ u = v := by
  intro xs
  induction xs with
  | nil =>
    intro ys u v hu hv h
    cases ys with
    | nil =>
      simp only [List.nil_append] at h
      injection h with _ h2
      exact ⟨rfl, h2⟩
    | cons y ys' =>
      simp only [List.nil_append, List.cons_append] at h
      injection h with h1 h2
      exact absurd (h2 ▸ List.mem_append_right ys' (List.mem_cons_self c v)) hu
  | cons x xs' ih =>
    intro ys u v hu hv h
    cases ys with
    | nil =>
      simp only [List.nil_append, List.cons_append] at h
      injection h with h1 h2
      exact absurd (h2 ▸ List.mem_append_right xs' (List.mem_cons_self c u)) hv
    | cons y ys' =>
      simp only [List.cons_append] at h
      injection h with h1 h2
      obtain ⟨ha, hb⟩ := ih ys' u v hu hv h2
      exact ⟨by rw [h1, ha], hb⟩

theorem itemKey_data (it : HistoryItem) :
    (itemKey it).data = it.itemId.data ++ ':' :: (statusStr it.status).data := by
  rw [itemKey, strData_append, strData_append, List.append_assoc]
  rfl

theorem colon_not_mem_statusStr (s : ItemStatus) : ':' ∉ (statusStr s).data := by
  cases s <;> decide

theorem statusStr_data_inj (s₁ s₂ : ItemStatus)
    (h : (statusStr s₁).data = (statusStr s₂).data) : s₁ = s₂ := by
  cases s₁ <;> cases s₂ <;> revert h <;> decide

theorem itemKey_inj (it₁ it₂ : HistoryItem) (h : itemKey it₁ = itemKey it₂) :
    it₁ = it₂ := by
  have hd := congrArg String.data h
  rw [itemKey_data, itemKey_data] at hd
  obtain ⟨h1, h2⟩ := cons_append_split ':' _ _ _ _ (colon_not_mem_statusStr it₁.status)
    (colon_not_mem_statusStr it₂.status) hd
  have hid : it₁.itemId = it₂.itemId := strOfData _ _ h1
  have hst : it₁.status = it₂.status := statusStr_data_inj _ _ h2
  cases it₁
  cases it₂
  rw [HistoryItem.mk.injEq]
  exact ⟨hid, hst⟩

theorem contains_iff_mem (l : List String) (a : String) : l.contains a = true ↔ a ∈ l := by
  induction l with
  | nil => simp [List.contains]
  | cons b t ih =>
    simp [List.contains] at ih ⊢

theorem foldl_processItem_seen (h : List HistoryItem) :
    ∀ (seen : List String) (out : List AdapterEvent) (k : String),
      (k ∈ (h.foldl processItem (seen, out)).1 ↔
        k ∈ seen ∨ ∃ it ∈ h, itemKey it = k) := by
  induction h with
  | nil => intro seen out k; simp
  | cons it0 rest ih =>
    intro seen out k
    rw [List.foldl_cons]
    by_cases hc : seen.contains (itemKey it0) = true
    · have hmem : itemKey it0 ∈ seen := (contains_iff_mem _ _).mp hc
      have hp : processItem (seen, out) it0 = (seen, out) := by
        simp [processItem, hmem]
      rw [hp, ih seen out k]
      constructor
      · rintro (hk | ⟨it, hit, rfl⟩)
        · exact Or.inl hk
        · exact Or.inr ⟨it, List.mem_cons_of_mem _ hit, rfl⟩
      · rintro (hk | ⟨it, hit, rfl⟩)
        · exact Or.inl hk
        · rcases List.mem_cons.mp hit with rfl | hit'
          · exact Or.inl hmem
          · exact Or.inr ⟨it, hit', rfl⟩
    · have hnm : itemKey it0 ∉ seen := fun hm => hc ((contains_iff_mem _ _).mpr hm)
      have hp : processItem (seen, out) it0 =
          (seen ++ [itemKey it0], out ++ [AdapterEvent.historyAdded it0]) := by
        simp [processItem, hnm]
      rw [hp, ih]
      constructor
      · rintro (hk | ⟨it, hit, rfl⟩)
        · rcases List.mem_append.mp hk with hk' | hk'
          · exact Or.inl hk'
          · exact Or.inr ⟨it0, List.mem_cons_self _ _, (List.mem_singleton.mp hk').symm⟩
        · exact Or.inr ⟨it, List.mem_cons_of_mem _ hit, rfl⟩
      · rintro (hk | ⟨it, hit, rfl⟩)
        · exact Or.inl (List.mem_append_left _ hk)
        · rcases List.mem_cons.mp hit with rfl | hit'
          · exact Or.inl (List.mem_append_right _ (List.mem_singleton_self _))
          · exact Or.inr ⟨it, hit', rfl⟩

theorem addedCount_append_added (out : List AdapterEvent) (it it0 : HistoryItem) :
    addedCount it (out ++ [AdapterEvent.historyAdded it0]) =
      addedCount it out + (if it = it0 then 1 else 0) := by
  by_cases hit : it = it0
  · subst hit
    simp [addedCount, List.count_append]
  · have hne : AdapterEvent.historyAdded it0 ≠ AdapterEvent.historyAdded it := by
      intro he
      injection he with he'
      exact hit he'.symm
    simp [addedCount, List.count_append, hit, List.count_singleton', hne]

theorem foldl_processItem_added (h : List HistoryItem) :
    ∀ (seen : List String) (out : List AdapterEvent) (it : HistoryItem),
      addedCount it (h.foldl processItem (seen, out)).2 =
        addedCount it out +
          (if itemKey it ∈ seen then 0 else if it ∈ h then 1 else 0) := by
  induction h with
  | nil => intro seen out it; simp
  | cons it0 rest ih =>
    intro seen out it
    rw [List.foldl_cons]
    by_cases hc : seen.contains (itemKey it0) = true
    · have hmem : itemKey it0 ∈ seen := (contains_iff_mem _ _).mp hc
      have hp : processItem (seen, out) it0 = (seen, out) := by
        simp [processItem, hmem]
      rw [hp, ih seen out it]
      by_cases hks : itemKey it ∈ seen
      · simp [hks]
      · have hne : it ≠ it0 := fun he => hks (he ▸ hmem)
        simp [hks, List.mem_cons, hne]
    · have hnmem : itemKey it0 ∉ seen := fun hm => hc ((contains_iff_mem _ _).mpr hm)
      have hp : processItem (seen, out) it0 =
          (seen ++ [itemKey it0], out ++ [AdapterEvent.historyAdded it0]) := by
        simp [processItem, hnmem]
      rw [hp, ih, addedCount_append_added]
      by_cases hks : itemKey it ∈ seen
      · have hne : it ≠ it0 := fun he => hnmem (he ▸ hks)
        simp [hks, hne, List.mem_append]
      · by_cases hit : it = it0
        · subst hit
          simp [hks, List.mem_append, Nat.add_assoc]
        · have hkne : itemKey it ≠ itemKey it0 := fun hk => hit (itemKey_inj _ _ hk)
          simp [hks, hit, hkne, List.mem_append, List.mem_cons]

theorem handleHistoryUpdated_seen (seen : List String) (hist : List HistoryItem)
    (k : String) :
    k ∈ (handleHistoryUpdated seen hist).1 ↔ k ∈ seen ∨ ∃ it ∈ hist, itemKey it = k := by
  unfold handleHistoryUpdated
  simpa using foldl_processItem_seen hist seen [] k

theorem handleHistoryUpdated_added (seen : List String) (hist : List HistoryItem)
    (it : HistoryItem) :
    addedCount it (handleHistoryUpdated seen hist).2 =
      if itemKey it ∈ seen then 0 else if it ∈ hist then 1 else 0 := by
  unfold handleHistoryUpdated
  have h1 := foldl_processItem_added hist seen [] it
  have h2 : addedCount it ((hist.foldl processItem (seen, [])).2 ++
      [AdapterEvent.historyUpdated hist]) =
      addedCount it (hist.foldl processItem (seen, [])).2 := by
    simp [addedCount, List.count_append, List.count_singleton']
  simpa [h2, addedCount] using h1

theorem handleHistoryUpdated_updated (seen : List String) (hist : List HistoryItem) :
    updatedCount (handleHistoryUpdated seen hist).2 = 1 := by
  unfold handleHistoryUpdated
  have h1 : ∀ (s : List String) (out : List AdapterEvent),
      updatedCount (hist.foldl processItem (s, out)).2 = updatedCount out := by
    induction hist with
    | nil => intro s out; rfl
    | cons it0 rest ih =>
      intro s out
      rw [List.foldl_cons]
      by_cases hm : itemKey it0 ∈ s
      · have hp : processItem (s, out) it0 = (s, out) := by simp [processItem, hm]
        rw [hp, ih]
      · have hp : processItem (s, out) it0 =
            (s ++ [itemKey it0], out ++ [AdapterEvent.historyAdded it0]) := by
          simp [processItem, hm]
        rw [hp, ih]
        simp [updatedCount, List.countP_append]
  simpa [updatedCount, List.countP_append] using h1 seen []

theorem processNotifications_added (ns : List (List HistoryItem)) :
    ∀ (seen : List String) (it : HistoryItem),
      addedCount it (processNotifications seen ns).2 =
        if itemKey it ∈ seen then 0 else if ∃ h ∈ ns, it ∈ h then 1 else 0 := by
  induction ns with
  | nil => intro seen it; simp [processNotifications, addedCount]
  | cons h rest ih =>
    intro seen it
    simp only [processNotifications]
    rw [show addedCount it ((handleHistoryUpdated seen h).2 ++
        (processNotifications (handleHistoryUpdated seen h).1 rest).2) =
        addedCount it (handleHistoryUpdated seen h).2 +
        addedCount it (processNotifications (handleHistoryUpdated seen h).1 rest).2 from by
      simp [addedCount, List.count_append]]
    rw [handleHistoryUpdated_added, ih]
    by_cases hks : itemKey it ∈ seen
    · have hcond : itemKey it ∈ (handleHistoryUpdated seen h).1 :=
        (handleHistoryUpdated_seen seen h _).mpr (Or.inl hks)
      simp [hks, hcond]
    · by_cases hih : it ∈ h
      · have hcond : itemKey it ∈ (handleHistoryUpdated seen h).1 :=
          (handleHistoryUpdated_seen seen h _).mpr (Or.inr ⟨it, hih, rfl⟩)
        have hex : ∃ h' ∈ h :: rest, it ∈ h' := ⟨h, List.mem_cons_self _ _, hih⟩
        simp [hks, hih, hcond, hex]
      · have hnokey : ¬ ∃ it' ∈ h, itemKey it' = itemKey it := by
          rintro ⟨it', hit', hk⟩
          exact hih (itemKey_inj it' it hk ▸ hit')
        have hcond : itemKey it ∉ (handleHistoryUpdated seen h).1 := by
          rw [handleHistoryUpdated_seen]
          rintro (hk | hk)
          · exact hks hk
          · exact hnokey hk
        have hiff : (∃ h' ∈ h :: rest, it ∈ h') ↔ ∃ h' ∈ rest, it ∈ h' := by
          constructor
          · rintro ⟨h', hh', hit'⟩
            rcases List.mem_cons.mp hh' with rfl | hh''
            · exact absurd hit' hih
            · exact ⟨h', hh'', hit'⟩
          · rintro ⟨h', hh', hit'⟩
            exact ⟨h', List.mem_cons_of_mem _ hh', hit'⟩
        simp [hks, hih, hcond, hiff]

theorem processNotifications_updated (ns : List (List HistoryItem)) :
    ∀ seen : List String,
      updatedCount (processNotifications seen ns).2 = ns.length := by
  induction ns with
  | nil => intro seen; rfl
  | cons h rest ih =>
    intro seen
    simp only [processNotifications]
    rw [show updatedCount ((handleHistoryUpdated seen h).2 ++
        (processNotifications (handleHistoryUpdated seen h).1 rest).2) =
        updatedCount (handleHistoryUpdated seen h).2 +
        updatedCount (processNotifications (handleHistoryUpdated seen h).1 rest).2 from by
      simp [updatedCount, List.countP_append]]
    rw [handleHistoryUpdated_updated, ih]
    simp [Nat.add_comm]

/-- C8: over any sequence of history_updated notifications, the adapter emits
history_added for a given (item identity, item status) value at most once,
exactly once when that value occurs in some notification, and emits one
history_updated event carrying the snapshot for every notification. -/
theorem history_dedup_exactly_once (ns : List (List HistoryItem)) :
    (∀ it : HistoryItem, addedCount it (processNotifications [] ns).2 ≤ 1) ∧
    (∀ it : HistoryItem, (∃ h ∈ ns, it ∈ h) →
      addedCount it (processNotifications [] ns).2 = 1) ∧
    updatedCount (processNotifications [] ns).2 = ns.length := by
  refine ⟨fun it => ?_, fun it hit => ?_, processNotifications_updated ns []⟩
  · rw [processNotifications_added ns [] it]
    by_cases hex : ∃ h ∈ ns, it ∈ h <;> simp [hex]
  · rw [processNotifications_added ns [] it]
    simp [hit]

theorem history_dedup_exactly_once_witness :
    (∃ h ∈ [[(⟨"a", ItemStatus.completed⟩ : HistoryItem)],
        [(⟨"a", ItemStatus.completed⟩ : HistoryItem)]],
      (⟨"a", ItemStatus.completed⟩ : HistoryItem) ∈ h) ∧
    addedCount (⟨"a", ItemStatus.completed⟩ : HistoryItem)
      (processNotifications []
        [[(⟨"a", ItemStatus.completed⟩ : HistoryItem)],
         [(⟨"a", ItemStatus.completed⟩ : HistoryItem)]]).2 = 1 ∧
    updatedCount (processNotifications []
      [[(⟨"a", ItemStatus.completed⟩ : HistoryItem)],
       [(⟨"a", ItemStatus.completed⟩ : HistoryItem)]]).2 =
      [[(⟨"a", ItemStatus.completed⟩ : HistoryItem)],
       [(⟨"a", ItemStatus.completed⟩ : HistoryItem)]].length :=
  ⟨by decide,
   (history_dedup_exactly_once _).2.1 _ (by decide),
   (history_dedup_exactly_once _).2.2⟩
